import Mathlib

/-!
Shallow embedding of `src/main.py` (LushMeet Twitter bot), covering the
rate-limit tracker, the backoff-retrying dispatcher, the content rotation
selectors, the scheduling predicates, the daily-counter reset, and the four
gated actions.  Wall-clock time is modelled in seconds as a rational number;
`time.sleep(w)` advances the clock by `w`.  The remote API is modelled as a
function from the attempt index to the outcome of that invocation
(`success` / `TooManyRequests` / any other exception).  `random.choice(l)`
is modelled by an index parameter `k`, reading `l[k % len(l)]`, so theorems
quantifying over `k` cover every possible random choice.
-/

namespace LushMeet

/-- `TWEET_INTERVAL_HOURS = 4` from src/main.py. -/
def TWEET_INTERVAL_HOURS : ℚ := 4

/-- `REPLY_INTERVAL_MINUTES = 30` from src/main.py. -/
def REPLY_INTERVAL_MINUTES : ℚ := 30

/-- `MIN_LIKES_THRESHOLD = 2` from src/main.py. -/
def MIN_LIKES_THRESHOLD : Nat := 2

/-- `FOLLOW_LIMIT_PER_DAY = 20` from src/main.py. -/
def FOLLOW_LIMIT_PER_DAY : Nat := 20

/-- `DM_LIMIT_PER_DAY = 5` from src/main.py. -/
def DM_LIMIT_PER_DAY : Nat := 5

/-- `MAX_RETRIES = 5` from src/main.py. -/
def MAX_RETRIES : Nat := 5

/-- `INITIAL_BACKOFF = 60` seconds, from src/main.py. -/
def INITIAL_BACKOFF : ℚ := 60

/-- `MAX_BACKOFF = 3600` seconds, from src/main.py. -/
def MAX_BACKOFF : ℚ := 3600

/-- `RATE_LIMIT_RESET_BUFFER = 5` seconds, from src/main.py. -/
def RATE_LIMIT_RESET_BUFFER : ℚ := 5

/-- The four endpoint categories tracked in `self.rate_limits`. -/
inductive Endpoint where
  | search
  | tweet
  | follow
  | dm
deriving DecidableEq, Repr

/-- One entry of `self.rate_limits`: `{"remaining": ..., "reset_time": ...}`.
`remaining` is a Python int (kept at `≥ 0` by `max(0, ...)`), `reset_time`
a wall-clock timestamp in seconds. -/
structure RateLimitWindow where
  remaining : ℤ
  reset_time : ℚ
deriving DecidableEq, Repr

/-- The `self.rate_limits` dictionary, keyed by endpoint. -/
def RateLimits : Type := Endpoint → RateLimitWindow

/-- Pointwise update of one endpoint's window. -/
def updateRL (rl : RateLimits) (ep : Endpoint) (w : RateLimitWindow) : RateLimits :=
  fun e => if e = ep then w else rl e

/-- The per-endpoint default quota, as hardcoded both in `__init__`
(`{"remaining": 180/200/50/200, ...}`) and in the `if endpoint == ...`
chain of `_check_rate_limit`. -/
def default_capacity : Endpoint → ℤ
  | .search => 180
  | .tweet => 200
  | .follow => 50
  | .dm => 200

/-- `self.rate_limits` as built in `__init__`: full default quota,
`reset_time = time.time()`. -/
def initRL (now : ℚ) : RateLimits := fun ep => ⟨default_capacity ep, now⟩

/-- `_update_rate_limit(endpoint, response)` from src/main.py lines 203-219.
`headers = some (remaining, reset)` models a response whose headers carry
both `x-rate-limit-remaining` and `x-rate-limit-reset`; `none` models a
response without them (or no response object), in which case `remaining`
is decremented through `max(0, remaining - 1)`. -/
def _update_rate_limit (rl : RateLimits) (ep : Endpoint)
    (headers : Option (Nat × ℚ)) : RateLimits :=
  match headers with
  | some (remaining, reset_time) => updateRL rl ep ⟨(remaining : ℤ), reset_time⟩
  | none => updateRL rl ep ⟨max 0 ((rl ep).remaining - 1), (rl ep).reset_time⟩

/-- A sequence of `_update_rate_limit` (observe) calls on one endpoint. -/
def observeSeq (rl : RateLimits) (ep : Endpoint)
    (hs : List (Option (Nat × ℚ))) : RateLimits :=
  hs.foldl (fun r h => _update_rate_limit r ep h) rl

/-- `_check_rate_limit(endpoint)` from src/main.py lines 221-249, at wall
clock `now`.  Returns `(none, rl)` for "not limited" (Python `False`),
refreshing the window to the default capacity with a fresh 900-second
window when the reset time plus buffer has elapsed, and
`(some wait, rl)` with the exact wait otherwise. -/
def _check_rate_limit (rl : RateLimits) (ep : Endpoint) (now : ℚ) :
    Option ℚ × RateLimits :=
  if (rl ep).remaining > 0 then (none, rl)
  else if now ≥ (rl ep).reset_time + RATE_LIMIT_RESET_BUFFER then
    (none, updateRL rl ep ⟨default_capacity ep, now + 900⟩)
  else (some ((rl ep).reset_time - now + RATE_LIMIT_RESET_BUFFER), rl)

/-- Outcome of one invocation of the wrapped operation `func`:
a successful response carrying a payload and optional rate-limit headers,
a `tweepy.TooManyRequests` with the optional `x-rate-limit-reset` header,
or any other exception. -/
inductive ApiResult (α : Type) where
  | success (data : α) (headers : Option (Nat × ℚ))
  | tooManyRequests (reset : Option ℚ)
  | otherError

/-- `True` iff the invocation raised (either exception branch). -/
def ApiResult.isFailure {α : Type} : ApiResult α → Bool
  | .success _ _ => false
  | _ => true

/-- The mutable state of one `while` iteration of
`_api_request_with_backoff`: rate limits, wall clock, current `backoff`,
and the accumulated list of `time.sleep` durations. -/
structure IterState where
  rl : RateLimits
  now : ℚ
  backoff : ℚ
  sleeps : List ℚ

/-- Result of `_api_request_with_backoff`: the returned response payload
(`none` models Python's `return None` after exhausting retries), the final
rate limits and wall clock, the sleep trace, and the number of times the
wrapped operation was invoked. -/
structure DispatchResult (α : Type) where
  res : Option α
  rl : RateLimits
  now : ℚ
  sleeps : List ℚ
  attempts : Nat

/-- The rate-limit pre-check at the top of each loop iteration:
`wait_time = self._check_rate_limit(endpoint); if wait_time: sleep(min(wait_time, MAX_BACKOFF))`. -/
def preWait (ep : Endpoint) (s : IterState) : IterState :=
  let c := _check_rate_limit s.rl ep s.now
  match c.1 with
  | some w =>
    let w2 := min w MAX_BACKOFF
    { rl := c.2, now := s.now + w2, backoff := s.backoff, sleeps := s.sleeps ++ [w2] }
  | none => { s with rl := c.2 }

/-- One iteration of the `while retries <= MAX_RETRIES` loop of
`_api_request_with_backoff` (src/main.py lines 256-308), given the outcome
`res` of this iteration's invocation of the wrapped operation.  Returns the
new iteration state and `some data` when the call succeeded (the loop
returns), `none` when it failed (the loop continues with `retries + 1`). -/
def dispatchIter {α : Type} (ep : Endpoint) (res : ApiResult α) (s0 : IterState) :
    IterState × Option α :=
  let s := preWait ep s0
  match res with
  | .success d h => ({ s with rl := _update_rate_limit s.rl ep h }, some d)
  | .tooManyRequests (some rst) =>
    let w := max 0 (min (rst - s.now + RATE_LIMIT_RESET_BUFFER) MAX_BACKOFF)
    ({ rl := updateRL s.rl ep ⟨0, rst⟩, now := s.now + w, backoff := s.backoff,
       sleeps := s.sleeps ++ [w] }, none)
  | .tooManyRequests none =>
    ({ rl := s.rl, now := s.now + s.backoff, backoff := min (s.backoff * 2) MAX_BACKOFF,
       sleeps := s.sleeps ++ [s.backoff] }, none)
  | .otherError =>
    ({ rl := s.rl, now := s.now + s.backoff, backoff := min (s.backoff * 2) MAX_BACKOFF,
       sleeps := s.sleeps ++ [s.backoff] }, none)

/-- The `while retries <= MAX_RETRIES` loop, with `fuel` the number of
iterations still allowed (`MAX_RETRIES + 1 - retries`) and `attempt` the
number of invocations made so far.  `op n` is the outcome of the `n`-th
(0-based) invocation of the wrapped operation. -/
def dispatchGo {α : Type} (ep : Endpoint) (op : Nat → ApiResult α) :
    Nat → Nat → IterState → DispatchResult α
  | 0, attempt, s => ⟨none, s.rl, s.now, s.sleeps, attempt⟩
  | fuel + 1, attempt, s =>
    match dispatchIter ep (op attempt) s with
    | (s2, some d) => ⟨some d, s2.rl, s2.now, s2.sleeps, attempt + 1⟩
    | (s2, none) => dispatchGo ep op fuel (attempt + 1) s2

/-- `_api_request_with_backoff(endpoint, func, ...)` from src/main.py
lines 251-311: `retries = 0; backoff = INITIAL_BACKOFF`, then the retry
loop; `res = none` models `return None` after exhausting retries. -/
def _api_request_with_backoff {α : Type} (ep : Endpoint) (op : Nat → ApiResult α)
    (rl : RateLimits) (now : ℚ) : DispatchResult α :=
  dispatchGo ep op (MAX_RETRIES + 1) 0 ⟨rl, now, INITIAL_BACKOFF, []⟩

/-- The persisted `self.state` document (default shape built by
`_load_state`, src/main.py lines 101-124).  Timestamps are seconds (ℚ),
the calendar date a string, interaction ids numeric. -/
structure BotState where
  last_tweet_time : Option ℚ
  last_reply_time : Option ℚ
  tweets_posted_today : Nat
  replies_sent_today : Nat
  follows_today : Nat
  dms_sent_today : Nat
  last_reset_date : String
  replied_to_tweets : List Nat
  followed_users : List Nat
  dm_sent_users : List Nat
  used_tweets : List String
  used_replies : List String
deriving DecidableEq, Repr

/-- `_check_reset_daily_counters` from src/main.py lines 134-144, with
`today = datetime.now().strftime("%Y-%m-%d")`.  The boolean records
whether `_save_state` was called (it is called exactly in the
new-day branch). -/
def _check_reset_daily_counters (s : BotState) (today : String) : BotState × Bool :=
  if s.last_reset_date ≠ today then
    ({ s with
        last_reset_date := today
        tweets_posted_today := 0
        replies_sent_today := 0
        follows_today := 0
        dms_sent_today := 0 }, true)
  else (s, false)

/-- `should_post_tweet` from src/main.py lines 313-327: daily cap of 5,
then the 4-hour interval gate computed through
`(now - last).total_seconds() / 3600 >= TWEET_INTERVAL_HOURS`. -/
def should_post_tweet (s : BotState) (now : ℚ) : Bool :=
  if s.tweets_posted_today ≥ 5 then false
  else
    match s.last_tweet_time with
    | some t => decide ((now - t) / 3600 ≥ TWEET_INTERVAL_HOURS)
    | none => true

/-- `should_find_and_reply` from src/main.py lines 329-343: daily cap of
24, then the 30-minute interval gate computed through
`(now - last).total_seconds() / 60 >= REPLY_INTERVAL_MINUTES`. -/
def should_find_and_reply (s : BotState) (now : ℚ) : Bool :=
  if s.replies_sent_today ≥ 24 then false
  else
    match s.last_reply_time with
    | some t => decide ((now - t) / 60 ≥ REPLY_INTERVAL_MINUTES)
    | none => true

/-- `_get_next_tweet` from src/main.py lines 159-175, acting on an explicit
pool and used-list.  `k` models the `random.choice` draw (the chosen index
is `k % len(available)`).  Returns `none` when the pool is empty, otherwise
the chosen item together with the new used-list (reset to `[]` first when
every pool item was already used). -/
def _get_next_tweet (tweets : List String) (used : List String) (k : Nat) :
    Option (String × List String) :=
  if tweets.isEmpty then none
  else
    let available := tweets.filter (fun t => decide (t ∉ used))
    let p := if available.isEmpty then (([] : List String), tweets) else (used, available)
    let t := p.2.getD (k % p.2.length) ""
    some (t, p.1 ++ [t])

/-- `_get_next_reply` from src/main.py lines 177-193; same algorithm as
`_get_next_tweet`, on the reply pool and `used_replies`. -/
def _get_next_reply (replies : List String) (used : List String) (k : Nat) :
    Option (String × List String) :=
  if replies.isEmpty then none
  else
    let available := replies.filter (fun t => decide (t ∉ used))
    let p := if available.isEmpty then (([] : List String), replies) else (used, available)
    let t := p.2.getD (k % p.2.length) ""
    some (t, p.1 ++ [t])

/-- `_get_random_dm` from src/main.py lines 195-201: plain random choice,
no rotation state. -/
def _get_random_dm (dms : List String) (k : Nat) : Option String :=
  if dms.isEmpty then none else some (dms.getD (k % dms.length) "")

/-- Iterated rotation: run `_get_next_tweet` once per element of `ks`
(the successive random draws), threading the used-list; returns the final
used-list and the list of returned items. -/
def rotationRun (pool : List String) : List String → List Nat → List String × List String
  | used, [] => (used, [])
  | used, k :: ks =>
    match _get_next_tweet pool used k with
    | none => (used, [])
    | some (t, used2) =>
      let r := rotationRun pool used2 ks
      (r.1, t :: r.2)

/-- One tweet returned by `search_recent_tweets`, with the fields the bot
reads: `tweet.id`, `tweet.public_metrics['like_count']`, `tweet.author_id`. -/
structure FoundTweet where
  id : Nat
  like_count : Nat
  author_id : Nat
deriving DecidableEq, Repr

/-- Result of one gated action: the in-memory `self.state`, the on-disk
persisted document, the returned boolean, whether `_save_state` was called,
the rate limits and wall clock after the action, and the interaction target
(replied-to tweet id / followed user id / DMed user id) if one was acted on. -/
structure ActionOut where
  mem : BotState
  disk : BotState
  ok : Bool
  saved : Bool
  rl : RateLimits
  now : ℚ
  target : Option Nat

/-- `post_tweet` from src/main.py lines 345-375.  `mem` is the in-memory
state, `disk` the persisted document, `tweets` the content pool, `k` the
random draw, `op` the behaviour of `client_v2.create_tweet` (payload: the
new tweet id).  State is saved (disk := mem) only after a successful
dispatch; `if not tweet_text` covers both an empty pool (`none`) and an
empty-string item. -/
def post_tweet (mem disk : BotState) (tweets : List String) (k : Nat)
    (op : Nat → ApiResult Nat) (rl : RateLimits) (now : ℚ) : ActionOut :=
  match _get_next_tweet tweets mem.used_tweets k with
  | none => ⟨mem, disk, false, false, rl, now, none⟩
  | some (t, used2) =>
    if t = "" then ⟨{ mem with used_tweets := used2 }, disk, false, false, rl, now, none⟩
    else
      let mem1 := { mem with used_tweets := used2 }
      let d := _api_request_with_backoff Endpoint.tweet op rl now
      match d.res with
      | none => ⟨mem1, disk, false, false, d.rl, d.now, none⟩
      | some _ =>
        let mem2 := { mem1 with
                        last_tweet_time := some d.now
                        tweets_posted_today := mem1.tweets_posted_today + 1 }
        ⟨mem2, mem2, true, true, d.rl, d.now, none⟩

/-- `find_and_reply_to_tweets` from src/main.py lines 377-445.
`opSearch` drives the `search_recent_tweets` dispatch (payload: the found
tweets; an empty list models `not tweets_response.data`), `opReply` the
`create_tweet` reply dispatch, `delay` the anti-bot `time.sleep(random.uniform(5, 15))`.
The `for` loop skips tweets already in `replied_to_tweets` and tweets with
fewer than `MIN_LIKES_THRESHOLD` likes, then returns on the first eligible
candidate whether the reply dispatch succeeds or fails — modelled by
`List.find?`. -/
def find_and_reply_to_tweets (mem disk : BotState)
    (opSearch : Nat → ApiResult (List FoundTweet)) (replies : List String) (k : Nat)
    (delay : ℚ) (opReply : Nat → ApiResult Nat) (rl : RateLimits) (now : ℚ) : ActionOut :=
  let ds := _api_request_with_backoff Endpoint.search opSearch rl now
  match ds.res with
  | none => ⟨mem, disk, false, false, ds.rl, ds.now, none⟩
  | some found =>
    if found.isEmpty then ⟨mem, disk, false, false, ds.rl, ds.now, none⟩
    else
      match found.find? (fun tw =>
          decide (tw.id ∉ mem.replied_to_tweets) &&
          decide (tw.like_count ≥ MIN_LIKES_THRESHOLD)) with
      | none => ⟨mem, disk, false, false, ds.rl, ds.now, none⟩
      | some tw =>
        match _get_next_reply replies mem.used_replies k with
        | none => ⟨mem, disk, false, false, ds.rl, ds.now, none⟩
        | some (r, used2) =>
          if r = "" then
            ⟨{ mem with used_replies := used2 }, disk, false, false, ds.rl, ds.now, none⟩
          else
            let mem1 := { mem with used_replies := used2 }
            let d := _api_request_with_backoff Endpoint.tweet opReply ds.rl (ds.now + delay)
            match d.res with
            | none => ⟨mem1, disk, false, false, d.rl, d.now, none⟩
            | some _ =>
              let mem2 := { mem1 with
                              last_reply_time := some d.now
                              replies_sent_today := mem1.replies_sent_today + 1
                              replied_to_tweets := mem1.replied_to_tweets ++ [tw.id] }
              ⟨mem2, mem2, true, true, d.rl, d.now, some tw.id⟩

/-- `follow_users` from src/main.py lines 447-510: feature toggle, daily
cap, search dispatch, first author not already in `followed_users`,
follow dispatch, then state update and save on success. -/
def follow_users (mem disk : BotState) (enable_follows : Bool)
    (opSearch : Nat → ApiResult (List FoundTweet)) (delay : ℚ)
    (opFollow : Nat → ApiResult Nat) (rl : RateLimits) (now : ℚ) : ActionOut :=
  if !enable_follows then ⟨mem, disk, false, false, rl, now, none⟩
  else if mem.follows_today ≥ FOLLOW_LIMIT_PER_DAY then ⟨mem, disk, false, false, rl, now, none⟩
  else
    let ds := _api_request_with_backoff Endpoint.search opSearch rl now
    match ds.res with
    | none => ⟨mem, disk, false, false, ds.rl, ds.now, none⟩
    | some found =>
      if found.isEmpty then ⟨mem, disk, false, false, ds.rl, ds.now, none⟩
      else
        match found.find? (fun tw => decide (tw.author_id ∉ mem.followed_users)) with
        | none => ⟨mem, disk, false, false, ds.rl, ds.now, none⟩
        | some tw =>
          let d := _api_request_with_backoff Endpoint.follow opFollow ds.rl (ds.now + delay)
          match d.res with
          | none => ⟨mem, disk, false, false, d.rl, d.now, none⟩
          | some _ =>
            let mem2 := { mem with
                            follows_today := mem.follows_today + 1
                            followed_users := mem.followed_users ++ [tw.author_id] }
            ⟨mem2, mem2, true, true, d.rl, d.now, some tw.author_id⟩

/-- `send_dms` from src/main.py lines 512-563: feature toggle, daily cap,
candidate set `followed_users \ dm_sent_users`, random user (`ku`), random
DM template (`kd`), DM dispatch through the v1 client, state update and
save on success. -/
def send_dms (mem disk : BotState) (enable_dms : Bool) (dms : List String)
    (ku kd : Nat) (delay : ℚ) (opDm : Nat → ApiResult Nat) (rl : RateLimits) (now : ℚ) :
    ActionOut :=
  if !enable_dms then ⟨mem, disk, false, false, rl, now, none⟩
  else if mem.dms_sent_today ≥ DM_LIMIT_PER_DAY then ⟨mem, disk, false, false, rl, now, none⟩
  else
    let potential := mem.followed_users.filter (fun u => decide (u ∉ mem.dm_sent_users))
    if potential.isEmpty then ⟨mem, disk, false, false, rl, now, none⟩
    else
      let user := potential.getD (ku % potential.length) 0
      match _get_random_dm dms kd with
      | none => ⟨mem, disk, false, false, rl, now, none⟩
      | some t =>
        if t = "" then ⟨mem, disk, false, false, rl, now, none⟩
        else
          let d := _api_request_with_backoff Endpoint.dm opDm rl (now + delay)
          match d.res with
          | none => ⟨mem, disk, false, false, d.rl, d.now, none⟩
          | some _ =>
            let mem2 := { mem with
                            dms_sent_today := mem.dms_sent_today + 1
                            dm_sent_users := mem.dm_sent_users ++ [user] }
            ⟨mem2, mem2, true, true, d.rl, d.now, some user⟩

/-- The three interaction kinds guarded by idempotence lists. -/
inductive InteractionKind where
  | reply
  | follow
  | dm
deriving DecidableEq, Repr

/-- The guard list of each interaction kind in the bot state. -/
def guard : InteractionKind → BotState → List Nat
  | .reply, s => s.replied_to_tweets
  | .follow, s => s.followed_users
  | .dm, s => s.dm_sent_users

/-- The whole world the bot mutates: in-memory state, persisted document,
rate limits, wall clock. -/
structure World where
  mem : BotState
  disk : BotState
  rl : RateLimits
  now : ℚ

/-- One step the bot may take: any of the four gated actions (with
arbitrary environment parameters) or a daily-counter reset. -/
inductive BotStep where
  | stepTweet (tweets : List String) (k : Nat) (op : Nat → ApiResult Nat)
  | stepReply (opSearch : Nat → ApiResult (List FoundTweet)) (replies : List String)
      (k : Nat) (delay : ℚ) (opReply : Nat → ApiResult Nat)
  | stepFollow (enable : Bool) (opSearch : Nat → ApiResult (List FoundTweet))
      (delay : ℚ) (opFollow : Nat → ApiResult Nat)
  | stepDm (enable : Bool) (dms : List String) (ku kd : Nat) (delay : ℚ)
      (opDm : Nat → ApiResult Nat)
  | stepReset (today : String)

/-- Execute one step, returning the new world and the interaction event
(kind and target id) performed by the step, if any. -/
def runStep (w : World) (st : BotStep) : World × Option (InteractionKind × Nat) :=
  match st with
  | .stepTweet tweets k op =>
    let o := post_tweet w.mem w.disk tweets k op w.rl w.now
    (⟨o.mem, o.disk, o.rl, o.now⟩, none)
  | .stepReply opS replies k delay opR =>
    let o := find_and_reply_to_tweets w.mem w.disk opS replies k delay opR w.rl w.now
    (⟨o.mem, o.disk, o.rl, o.now⟩, o.target.map (fun i => (InteractionKind.reply, i)))
  | .stepFollow en opS delay opF =>
    let o := follow_users w.mem w.disk en opS delay opF w.rl w.now
    (⟨o.mem, o.disk, o.rl, o.now⟩, o.target.map (fun i => (InteractionKind.follow, i)))
  | .stepDm en dms ku kd delay opD =>
    let o := send_dms w.mem w.disk en dms ku kd delay opD w.rl w.now
    (⟨o.mem, o.disk, o.rl, o.now⟩, o.target.map (fun i => (InteractionKind.dm, i)))
  | .stepReset today =>
    let p := _check_reset_daily_counters w.mem today
    (⟨p.1, if p.2 then p.1 else w.disk, w.rl, w.now⟩, none)

/-- Execute a sequence of steps, collecting the interaction events. -/
def runTrace (w : World) : List BotStep → World × List (InteractionKind × Nat)
  | [] => (w, [])
  | st :: sts =>
    let r1 := runStep w st
    let r2 := runTrace r1.1 sts
    (r2.1, r1.2.toList ++ r2.2)

/-! ### Dispatcher lemmas -/

theorem dispatchGo_succ {α : Type} (ep : Endpoint) (op : Nat → ApiResult α)
    (fuel a : Nat) (s : IterState) :
    dispatchGo ep op (fuel + 1) a s =
      match dispatchIter ep (op a) s with
      | (s2, some d) => ⟨some d, s2.rl, s2.now, s2.sleeps, a + 1⟩
      | (s2, none) => dispatchGo ep op fuel (a + 1) s2 := rfl

theorem dispatchIter_isFailure {α : Type} (ep : Endpoint) (r : ApiResult α)
    (h : r.isFailure = true) (s : IterState) : (dispatchIter ep r s).2 = none := by
  cases r with
  | success d hh => simp [ApiResult.isFailure] at h
  | tooManyRequests rst => cases rst <;> rfl
  | otherError => rfl

/-- If every invocation fails, the loop runs out of fuel: no response and
`fuel` further attempts made. -/
theorem dispatchGo_fail {α : Type} (ep : Endpoint) (op : Nat → ApiResult α)
    (hop : ∀ n, (op n).isFailure = true) :
    ∀ (fuel a : Nat) (s : IterState),
      (dispatchGo ep op fuel a s).res = none ∧
      (dispatchGo ep op fuel a s).attempts = a + fuel := by
  intro fuel
  induction fuel with
  | zero => intro a s; exact ⟨rfl, rfl⟩
  | succ n ih =>
    intro a s
    rcases hd : dispatchIter ep (op a) s with ⟨s2, r⟩
    have h2 : r = none := by
      have := dispatchIter_isFailure ep (op a) (hop a) s
      rw [hd] at this; exact this
    subst h2
    rw [dispatchGo_succ, hd]
    refine ⟨(ih (a + 1) s2).1, ?_⟩
    rw [(ih (a + 1) s2).2]; omega

/-- With remaining quota, a failing invocation that is not a
quota-exceeded-with-reset sleeps the current backoff and doubles it
(capped at `MAX_BACKOFF`). -/
theorem dispatchIter_otherError {α : Type} (ep : Endpoint) (s : IterState)
    (h : 0 < (s.rl ep).remaining) :
    dispatchIter ep (ApiResult.otherError : ApiResult α) s =
      (⟨s.rl, s.now + s.backoff, min (s.backoff * 2) MAX_BACKOFF,
        s.sleeps ++ [s.backoff]⟩, none) := by
  simp [dispatchIter, preWait, _check_rate_limit, h]

theorem dispatchIter_tooMany_none {α : Type} (ep : Endpoint) (s : IterState)
    (h : 0 < (s.rl ep).remaining) :
    dispatchIter ep (ApiResult.tooManyRequests none : ApiResult α) s =
      (⟨s.rl, s.now + s.backoff, min (s.backoff * 2) MAX_BACKOFF,
        s.sleeps ++ [s.backoff]⟩, none) := by
  simp [dispatchIter, preWait, _check_rate_limit, h]

/-- With remaining quota, a quota-exceeded failure carrying a server reset
time writes `remaining = 0, reset_time = rst` into the tracker and sleeps
`max 0 (min (rst - now + buffer) MAX_BACKOFF)`. -/
theorem dispatchIter_tooMany_some {α : Type} (ep : Endpoint) (s : IterState) (rst : ℚ)
    (h : 0 < (s.rl ep).remaining) :
    dispatchIter ep (ApiResult.tooManyRequests (some rst) : ApiResult α) s =
      (⟨updateRL s.rl ep ⟨0, rst⟩,
        s.now + max 0 (min (rst - s.now + RATE_LIMIT_RESET_BUFFER) MAX_BACKOFF),
        s.backoff,
        s.sleeps ++ [max 0 (min (rst - s.now + RATE_LIMIT_RESET_BUFFER) MAX_BACKOFF)]⟩,
       none) := by
  simp [dispatchIter, preWait, _check_rate_limit, h]

/-- The successive sleeps of `fuel` consecutive exponential-backoff
failures starting from backoff `b`. -/
def backoffList : ℚ → Nat → List ℚ
  | _, 0 => []
  | b, n + 1 => b :: backoffList (min (b * 2) MAX_BACKOFF) n

/-- Full description of the loop when every invocation raises a
non-quota error: rate limits untouched, sleeps follow the doubling
backoff sequence. -/
theorem dispatchGo_otherError {α : Type} (ep : Endpoint) (op : Nat → ApiResult α)
    (hop : ∀ n, op n = ApiResult.otherError) :
    ∀ (fuel a : Nat) (s : IterState), 0 < (s.rl ep).remaining →
      dispatchGo ep op fuel a s =
        ⟨none, s.rl, s.now + (backoffList s.backoff fuel).sum,
         s.sleeps ++ backoffList s.backoff fuel, a + fuel⟩ := by
  intro fuel
  induction fuel with
  | zero =>
    intro a s h
    simp [dispatchGo, backoffList]
  | succ n ih =>
    intro a s h
    rw [dispatchGo_succ, hop a, dispatchIter_otherError ep s h]
    dsimp only
    rw [ih (a + 1) ⟨s.rl, s.now + s.backoff, min (s.backoff * 2) MAX_BACKOFF,
          s.sleeps ++ [s.backoff]⟩ h]
    simp [backoffList, List.append_assoc]
    constructor
    · ring
    · omega

/-! ### Concrete inputs used by counterexamples and witnesses -/

/-- An operation that raises a non-quota (transient) error on every
invocation. -/
def alwaysTransient : Nat → ApiResult Nat := fun _ => ApiResult.otherError

/-- A rate-limit table with an exhausted window (`remaining = 0`,
`reset_time = 10`) on every endpoint. -/
def rlZero : RateLimits := fun _ => ⟨0, 10⟩

/-- A state that already posted 5 tweets today. -/
def sampleState : BotState :=
  ⟨none, none, 5, 0, 0, 0, "2025-01-01", [], [], [], [], []⟩

/-! ### Claim theorems -/

/-- C1: the claim says `_api_request_with_backoff` makes at most
`MAX_RETRIES = 5` attempts.  False: `while retries <= MAX_RETRIES` runs
the body for `retries = 0, 1, ..., 5`, so an always-failing operation is
invoked 6 times before `None` is returned. -/
theorem C1_counterexample :
    (_api_request_with_backoff Endpoint.tweet alwaysTransient (initRL 0) 0).attempts = 6 ∧
    ¬ (_api_request_with_backoff Endpoint.tweet alwaysTransient (initRL 0) 0).attempts
        ≤ MAX_RETRIES := by
  constructor <;> decide

/-- C1 (amended): for every endpoint and every operation that fails on
each invocation, the dispatcher makes exactly `MAX_RETRIES + 1 = 6`
attempts (one initial attempt plus `MAX_RETRIES` retries) and returns
Failure (`None`); for an operation that always raises a transient error
(and a non-exhausted window) it sleeps with doubling backoff starting at
`INITIAL_BACKOFF`, every sleep capped at `MAX_BACKOFF`, and leaves the
rate-limit state untouched (it never touches the persisted bot state,
which it does not even receive). -/
theorem C1_theorem {α : Type} (ep : Endpoint) (op : Nat → ApiResult α)
    (rl : RateLimits) (now : ℚ)
    (hfail : ∀ n, (op n).isFailure = true) :
    ((_api_request_with_backoff ep op rl now).res = none ∧
     (_api_request_with_backoff ep op rl now).attempts = MAX_RETRIES + 1) ∧
    ((∀ n, op n = ApiResult.otherError) → 0 < (rl ep).remaining →
      (_api_request_with_backoff ep op rl now).sleeps =
        [60, 120, 240, 480, 960, 1920] ∧
      (∀ w ∈ (_api_request_with_backoff ep op rl now).sleeps, w ≤ MAX_BACKOFF) ∧
      (_api_request_with_backoff ep op rl now).rl = rl) := by
  constructor
  · exact ⟨(dispatchGo_fail ep op hfail (MAX_RETRIES + 1) 0 _).1,
      (dispatchGo_fail ep op hfail (MAX_RETRIES + 1) 0 _).2⟩
  · intro hop hrem
    have hrun := dispatchGo_otherError ep op hop (MAX_RETRIES + 1) 0
      ⟨rl, now, INITIAL_BACKOFF, []⟩ hrem
    have hlist : backoffList INITIAL_BACKOFF (MAX_RETRIES + 1) =
        [60, 120, 240, 480, 960, 1920] := by
      norm_num [backoffList, INITIAL_BACKOFF, MAX_BACKOFF, MAX_RETRIES, min_def]
    unfold _api_request_with_backoff
    rw [hrun]
    simp only [hlist, List.nil_append]
    refine ⟨trivial, ?_, trivial⟩
    intro w hw
    fin_cases hw <;> norm_num [MAX_BACKOFF]

/-- C1 witness: the amended theorem instantiated with the
always-transient operation. -/
theorem C1_witness :
    ((_api_request_with_backoff Endpoint.tweet alwaysTransient (initRL 0) 0).res = none ∧
     (_api_request_with_backoff Endpoint.tweet alwaysTransient (initRL 0) 0).attempts =
       MAX_RETRIES + 1) ∧
    (_api_request_with_backoff Endpoint.tweet alwaysTransient (initRL 0) 0).sleeps =
      [60, 120, 240, 480, 960, 1920] :=
  ⟨(C1_theorem Endpoint.tweet alwaysTransient (initRL 0) 0 (fun _ => rfl)).1,
   ((C1_theorem Endpoint.tweet alwaysTransient (initRL 0) 0 (fun _ => rfl)).2
      (fun _ => rfl) (by decide)).1⟩

/-- C2: `_check_rate_limit` is not-limited when `remaining > 0`; with
`remaining = 0` and `resetAt + buffer ≤ now` it refills the window to the
endpoint's default capacity with `resetAt = now + 900` and is not limited;
with `remaining = 0` and `now < resetAt + buffer` it returns the exact
positive wait `resetAt - now + buffer`. -/
theorem C2_theorem (rl : RateLimits) (ep : Endpoint) (now : ℚ) :
    (0 < (rl ep).remaining → _check_rate_limit rl ep now = (none, rl)) ∧
    ((rl ep).remaining = 0 → (rl ep).reset_time + RATE_LIMIT_RESET_BUFFER ≤ now →
      _check_rate_limit rl ep now =
        (none, updateRL rl ep ⟨default_capacity ep, now + 900⟩)) ∧
    ((rl ep).remaining = 0 → now < (rl ep).reset_time + RATE_LIMIT_RESET_BUFFER →
      _check_rate_limit rl ep now =
        (some ((rl ep).reset_time - now + RATE_LIMIT_RESET_BUFFER), rl) ∧
      0 < (rl ep).reset_time - now + RATE_LIMIT_RESET_BUFFER) := by
  refine ⟨fun h => ?_, fun h0 hge => ?_, fun h0 hlt => ⟨?_, by linarith⟩⟩
  · simp [_check_rate_limit, h]
  · have h1 : ¬ ((rl ep).remaining > 0) := by omega
    simp only [_check_rate_limit]
    rw [if_neg h1, if_pos (le_trans hge (le_refl now))]
  · have h1 : ¬ ((rl ep).remaining > 0) := by omega
    have h2 : ¬ (now ≥ (rl ep).reset_time + RATE_LIMIT_RESET_BUFFER) := not_le.mpr hlt
    simp only [_check_rate_limit]
    rw [if_neg h1, if_neg h2]

/-- C2 witness: exhausted window with `resetAt = 10`, `now = 0` gives the
exact wait `10 - 0 + 5`. -/
theorem C2_witness :
    _check_rate_limit rlZero Endpoint.tweet 0 =
      (some ((rlZero Endpoint.tweet).reset_time - 0 + RATE_LIMIT_RESET_BUFFER), rlZero) ∧
    0 < (rlZero Endpoint.tweet).reset_time - 0 + RATE_LIMIT_RESET_BUFFER :=
  (C2_theorem rlZero Endpoint.tweet 0).2.2 rfl
    (by norm_num [rlZero, RATE_LIMIT_RESET_BUFFER])

/-- C3: after any observe call carrying both rate-limit headers (also at
the end of any observe sequence) the window equals the header values
exactly; a header-less observe decrements `remaining` through
`max 0 (remaining - 1)` and leaves `reset_time` unchanged; every observe
leaves `remaining ≥ 0`. -/
theorem C3_theorem (rl : RateLimits) (ep : Endpoint) (hs : List (Option (Nat × ℚ)))
    (rem : Nat) (rst : ℚ) (h : Option (Nat × ℚ)) :
    (observeSeq rl ep (hs ++ [some (rem, rst)])) ep = ⟨(rem : ℤ), rst⟩ ∧
    (_update_rate_limit rl ep (some (rem, rst))) ep = ⟨(rem : ℤ), rst⟩ ∧
    (_update_rate_limit rl ep none) ep =
      ⟨max 0 ((rl ep).remaining - 1), (rl ep).reset_time⟩ ∧
    0 ≤ ((_update_rate_limit rl ep h) ep).remaining := by
  refine ⟨?_, ?_, ?_, ?_⟩
  · simp [observeSeq, List.foldl_append, _update_rate_limit, updateRL]
  · simp [_update_rate_limit, updateRL]
  · simp [_update_rate_limit, updateRL]
  · match h with
    | some (a, b) => simp [_update_rate_limit, updateRL]
    | none => simp [_update_rate_limit, updateRL]

/-- C7: `should_post_tweet` is false at the daily cap of 5 regardless of
elapsed time; below the cap it is true with no recorded last tweet, and
otherwise true exactly when 4 hours (14400 s) have elapsed.
`should_find_and_reply` is the same with cap 24 and 30 minutes. -/
theorem C7_theorem (s : BotState) (now t : ℚ) :
    (5 ≤ s.tweets_posted_today → should_post_tweet s now = false) ∧
    (s.tweets_posted_today < 5 → s.last_tweet_time = none →
      should_post_tweet s now = true) ∧
    (s.tweets_posted_today < 5 → s.last_tweet_time = some t →
      (should_post_tweet s now = true ↔ TWEET_INTERVAL_HOURS * 3600 ≤ now - t)) ∧
    (24 ≤ s.replies_sent_today → should_find_and_reply s now = false) ∧
    (s.replies_sent_today < 24 → s.last_reply_time = none →
      should_find_and_reply s now = true) ∧
    (s.replies_sent_today < 24 → s.last_reply_time = some t →
      (should_find_and_reply s now = true ↔ REPLY_INTERVAL_MINUTES * 60 ≤ now - t)) := by
  refine ⟨fun h => ?_, fun h hn => ?_, fun h ht => ?_,
          fun h => ?_, fun h hn => ?_, fun h ht => ?_⟩
  · simp [should_post_tweet, h]
  · simp only [should_post_tweet]
    rw [if_neg (by omega), hn]
  · simp only [should_post_tweet]
    rw [if_neg (by omega), ht]
    rw [decide_eq_true_eq, ge_iff_le, le_div_iff₀ (by norm_num : (0:ℚ) < 3600)]
  · simp [should_find_and_reply, h]
  · simp only [should_find_and_reply]
    rw [if_neg (by omega), hn]
  · simp only [should_find_and_reply]
    rw [if_neg (by omega), ht]
    rw [decide_eq_true_eq, ge_iff_le, le_div_iff₀ (by norm_num : (0:ℚ) < 60)]

/-- C7 witness: at the cap (`tweets_posted_today = 5`) the gate is closed. -/
theorem C7_witness : should_post_tweet sampleState 0 = false :=
  (C7_theorem sampleState 0 0).1 (by decide)

/-- C8: when `last_reset_date` differs from today, the reset zeroes all
four daily counters, sets the date to today and saves; when it equals
today nothing changes and nothing is saved; running it a second time the
same day is a no-op. -/
theorem C8_theorem (s : BotState) (today : String) :
    (s.last_reset_date ≠ today →
      _check_reset_daily_counters s today =
        ({ s with
            last_reset_date := today
            tweets_posted_today := 0
            replies_sent_today := 0
            follows_today := 0
            dms_sent_today := 0 }, true)) ∧
    (s.last_reset_date = today → _check_reset_daily_counters s today = (s, false)) ∧
    (_check_reset_daily_counters (_check_reset_daily_counters s today).1 today =
      ((_check_reset_daily_counters s today).1, false)) := by
  refine ⟨fun h => ?_, fun h => ?_, ?_⟩
  · simp [_check_reset_daily_counters, h]
  · simp [_check_reset_daily_counters, h]
  · by_cases h : s.last_reset_date = today
    · simp [_check_reset_daily_counters, h]
    · simp [_check_reset_daily_counters, h]

/-- C8 witness: a state last reset on 2025-01-01 seen on 2025-01-02 is
zeroed, dated today, and saved. -/
theorem C8_witness :
    _check_reset_daily_counters sampleState "2025-01-02" =
      ({ sampleState with
          last_reset_date := "2025-01-02"
          tweets_posted_today := 0
          replies_sent_today := 0
          follows_today := 0
          dms_sent_today := 0 }, true) :=
  (C8_theorem sampleState "2025-01-02").1 (by decide)

/-- C10: on an empty pool the selectors return `none` without touching
the used lists, and `post_tweet` then returns `False` with no remote
call, no save and no state change at all. -/
theorem C10_theorem (used : List String) (k : Nat) (mem disk : BotState)
    (op : Nat → ApiResult Nat) (rl : RateLimits) (now : ℚ) :
    _get_next_tweet [] used k = none ∧
    _get_next_reply [] used k = none ∧
    _get_random_dm [] k = none ∧
    post_tweet mem disk [] k op rl now = ⟨mem, disk, false, false, rl, now, none⟩ := by
  exact ⟨rfl, rfl, rfl, rfl⟩

/-- A successful invocation with a clear rate-limit pre-check: the loop
returns the payload without sleeping in this iteration. -/
theorem dispatchIter_success_fields {α : Type} (ep : Endpoint) (d : α)
    (hh : Option (Nat × ℚ)) (s : IterState)
    (hc : (_check_rate_limit s.rl ep s.now).1 = none) :
    (dispatchIter ep (ApiResult.success d hh) s).2 = some d ∧
    (dispatchIter ep (ApiResult.success d hh) s).1.now = s.now ∧
    (dispatchIter ep (ApiResult.success d hh) s).1.sleeps = s.sleeps := by
  simp [dispatchIter, preWait, hc]

/-- C4: on a quota-exceeded failure carrying a server reset time the
dispatcher writes `remaining = 0, reset_time = <server value>` and sleeps
until that reset (buffered, clamped into `[0, MAX_BACKOFF]`); without a
server reset time it sleeps the current exponential backoff and doubles
it, capped at `MAX_BACKOFF`.  In the concrete scenario — first invocation
raises quota-exceeded with `resetAt = now0 + 120`, second succeeds — the
call returns Success having slept exactly once, for 125 s, so at least
120 s elapse; the dispatcher itself never touches the persisted bot
state. -/
theorem C4_theorem (ep : Endpoint) (op : Nat → ApiResult Unit) (rl : RateLimits)
    (now0 : ℚ) (s : IterState) (rst : ℚ)
    (h1 : 0 < (rl ep).remaining)
    (h2 : op 0 = ApiResult.tooManyRequests (some (now0 + 120)))
    (h3 : op 1 = ApiResult.success () none)
    (h4 : 0 < (s.rl ep).remaining) :
    ((_api_request_with_backoff ep op rl now0).res = some () ∧
     (_api_request_with_backoff ep op rl now0).sleeps = [125] ∧
     (_api_request_with_backoff ep op rl now0).now = now0 + 125 ∧
     120 ≤ (_api_request_with_backoff ep op rl now0).now - now0) ∧
    (dispatchIter ep (ApiResult.tooManyRequests (some rst) : ApiResult Unit) s =
      (⟨updateRL s.rl ep ⟨0, rst⟩,
        s.now + max 0 (min (rst - s.now + RATE_LIMIT_RESET_BUFFER) MAX_BACKOFF),
        s.backoff,
        s.sleeps ++ [max 0 (min (rst - s.now + RATE_LIMIT_RESET_BUFFER) MAX_BACKOFF)]⟩,
       none)) ∧
    (dispatchIter ep (ApiResult.tooManyRequests none : ApiResult Unit) s =
      (⟨s.rl, s.now + s.backoff, min (s.backoff * 2) MAX_BACKOFF,
        s.sleeps ++ [s.backoff]⟩, none)) := by
  refine ⟨?_, dispatchIter_tooMany_some ep s rst h4, dispatchIter_tooMany_none ep s h4⟩
  have hw : max 0 (min (now0 + 120 - now0 + RATE_LIMIT_RESET_BUFFER) MAX_BACKOFF)
      = 125 := by
    simp only [RATE_LIMIT_RESET_BUFFER, MAX_BACKOFF]
    rw [show now0 + 120 - now0 + 5 = (125 : ℚ) by ring]
    norm_num [min_def, max_def]
  have e1 := dispatchIter_tooMany_some (α := Unit) ep ⟨rl, now0, INITIAL_BACKOFF, []⟩
      (now0 + 120) h1
  dsimp only at e1
  rw [hw, List.nil_append] at e1
  have hup : updateRL rl ep ⟨0, now0 + 120⟩ ep = ⟨0, now0 + 120⟩ := by simp [updateRL]
  have hchk : (_check_rate_limit (updateRL rl ep ⟨0, now0 + 120⟩) ep (now0 + 125)).1
      = none := by
    have hge : now0 + 125 ≥
        (⟨0, now0 + 120⟩ : RateLimitWindow).reset_time + RATE_LIMIT_RESET_BUFFER := by
      simp only [RATE_LIMIT_RESET_BUFFER]
      linarith
    simp [_check_rate_limit, hup, hge]
  rcases he2 : dispatchIter ep (ApiResult.success () (none : Option (Nat × ℚ)))
      ⟨updateRL rl ep ⟨0, now0 + 120⟩, now0 + 125, INITIAL_BACKOFF, [125]⟩ with ⟨s2, r⟩
  have hf := dispatchIter_success_fields ep () (none : Option (Nat × ℚ))
      ⟨updateRL rl ep ⟨0, now0 + 120⟩, now0 + 125, INITIAL_BACKOFF, [125]⟩ hchk
  rw [he2] at hf
  dsimp only at hf
  obtain ⟨hr, hnow, hsl⟩ := hf
  unfold _api_request_with_backoff
  rw [dispatchGo_succ, h2, e1]
  dsimp only
  rw [show MAX_RETRIES = 4 + 1 from rfl, dispatchGo_succ]
  simp only [Nat.zero_add]
  rw [h3, he2, hr]
  dsimp only
  rw [hnow, hsl]
  refine ⟨rfl, rfl, rfl, by linarith⟩

/-- A two-invocation operation for the C4 scenario: quota-exceeded with
`resetAt = 120` first, success second. -/
def scenarioOp : Nat → ApiResult Unit := fun n =>
  if n = 0 then ApiResult.tooManyRequests (some (0 + 120)) else ApiResult.success () none

/-- C4 witness: the scenario instantiated at `now0 = 0` from a fresh
rate-limit table. -/
theorem C4_witness :
    (_api_request_with_backoff Endpoint.tweet scenarioOp (initRL 0) 0).res = some () ∧
    (_api_request_with_backoff Endpoint.tweet scenarioOp (initRL 0) 0).sleeps = [125] ∧
    (_api_request_with_backoff Endpoint.tweet scenarioOp (initRL 0) 0).now = 0 + 125 ∧
    120 ≤ (_api_request_with_backoff Endpoint.tweet scenarioOp (initRL 0) 0).now - 0 :=
  (C4_theorem Endpoint.tweet scenarioOp (initRL 0) 0
    ⟨initRL 0, 0, INITIAL_BACKOFF, []⟩ 0
    (by decide) rfl rfl (by decide)).1

/-! ### Rotation selector lemmas -/

theorem getD_mem {α : Type} (l : List α) (n : Nat) (d : α) (h : n < l.length) :
    l.getD n d ∈ l := by
  rw [List.getD_eq_getElem l d h]
  exact List.getElem_mem h

/-- While the used-list has not yet exhausted a duplicate-free pool, one
selector call returns a fresh pool item and appends it. -/
theorem get_next_fresh (pool used : List String) (k : Nat)
    (hnd : pool.Nodup) (hsub : used ⊆ pool) (hlen : used.length < pool.length) :
    ∃ t, _get_next_tweet pool used k = some (t, used ++ [t]) ∧ t ∈ pool ∧ t ∉ used := by
  set avail := pool.filter (fun t => decide (t ∉ used)) with hav
  have hne : pool.isEmpty = false := by
    cases pool
    · simp at hlen
    · rfl
  have havne : avail ≠ [] := by
    intro h
    have hpsub : pool ⊆ used := by
      intro x hx
      by_contra hxu
      have hmem : x ∈ avail := by
        rw [hav, List.mem_filter]
        exact ⟨hx, by simpa using hxu⟩
      rw [h] at hmem
      simp at hmem
    have h1 : pool.toFinset.card = pool.length := List.toFinset_card_of_nodup hnd
    have h2 : pool.toFinset ⊆ used.toFinset := by
      intro x hx
      rw [List.mem_toFinset] at hx ⊢
      exact hpsub hx
    have h3 : used.toFinset.card ≤ used.length := List.toFinset_card_le used
    have h4 := Finset.card_le_card h2
    omega
  have havempty : avail.isEmpty = false := by
    cases h : avail
    · exact absurd h havne
    · rfl
  have hlt : k % avail.length < avail.length :=
    Nat.mod_lt _ (List.length_pos.mpr havne)
  have htmem : avail.getD (k % avail.length) "" ∈ avail := getD_mem _ _ _ hlt
  have htpool : avail.getD (k % avail.length) "" ∈ pool :=
    (List.mem_filter.mp htmem).1
  have htused : avail.getD (k % avail.length) "" ∉ used := by
    have := (List.mem_filter.mp htmem).2
    simpa using this
  refine ⟨avail.getD (k % avail.length) "", ?_, htpool, htused⟩
  simp only [_get_next_tweet, hne, Bool.false_eq_true, if_false, ← hav, havempty]

/-- Invariant of iterated rotation below exhaustion: the used-list is the
initial one extended by the returned items, stays duplicate-free and
inside the pool, and grows by one per call. -/
theorem rotationRun_inv (pool : List String) (hnd : pool.Nodup) :
    ∀ (ks : List Nat) (used : List String), used.Nodup → used ⊆ pool →
      used.length + ks.length ≤ pool.length →
      (rotationRun pool used ks).1 = used ++ (rotationRun pool used ks).2 ∧
      (rotationRun pool used ks).1.Nodup ∧
      (rotationRun pool used ks).1 ⊆ pool ∧
      (rotationRun pool used ks).1.length = used.length + ks.length := by
  intro ks
  induction ks with
  | nil =>
    intro used h1 h2 h3
    simpa [rotationRun] using ⟨h1, h2⟩
  | cons k ks ih =>
    intro used h1 h2 h3
    have hlt : used.length < pool.length := by
      simp only [List.length_cons] at h3
      omega
    obtain ⟨t, hstep, htp, htu⟩ := get_next_fresh pool used k hnd h2 hlt
    have hnd2 : (used ++ [t]).Nodup := by
      simp [List.nodup_append, h1, htu]
    have hsub2 : (used ++ [t]) ⊆ pool := by
      intro x hx
      rcases List.mem_append.mp hx with h | h
      · exact h2 h
      · simp only [List.mem_singleton] at h
        subst h
        exact htp
    have hlen2 : (used ++ [t]).length + ks.length ≤ pool.length := by
      simp only [List.length_append, List.length_singleton]
      simp only [List.length_cons] at h3
      omega
    have IH := ih (used ++ [t]) hnd2 hsub2 hlen2
    simp only [rotationRun]
    rw [hstep]
    dsimp only
    refine ⟨?_, IH.2.1, IH.2.2.1, ?_⟩
    · rw [IH.1]
      simp
    · rw [IH.2.2.2]
      simp only [List.length_append, List.length_cons, List.length_nil]
      omega

/-- C6: for a duplicate-free non-empty pool of size N, N selector calls
from an empty used-list return N pairwise-distinct items (never one
already in the used-set), leaving the used-set equal to the full pool;
the (N+1)-th call resets the used-set and returns a pool item, leaving
the used-set as the singleton of that item.  `_get_next_reply` is the
same function as `_get_next_tweet`. -/
theorem C6_theorem (pool : List String) (ks : List Nat) (k : Nat)
    (hne : pool ≠ []) (hnd : pool.Nodup) (hlen : ks.length = pool.length) :
    (rotationRun pool [] ks).1 = (rotationRun pool [] ks).2 ∧
    (rotationRun pool [] ks).1.Nodup ∧
    (rotationRun pool [] ks).1.toFinset = pool.toFinset ∧
    (∃ t ∈ pool,
      _get_next_tweet pool (rotationRun pool [] ks).1 k = some (t, [t])) ∧
    (∀ (used2 : List String) (k2 : Nat),
      _get_next_reply pool used2 k2 = _get_next_tweet pool used2 k2) := by
  have inv := rotationRun_inv pool hnd ks [] List.nodup_nil
    (by intro x hx; simp at hx) (by simp [hlen])
  obtain ⟨heq, hnodup, hsub, hlength⟩ := inv
  have hfin : (rotationRun pool [] ks).1.toFinset = pool.toFinset := by
    apply Finset.eq_of_subset_of_card_le
    · intro x hx
      rw [List.mem_toFinset] at hx ⊢
      exact hsub hx
    · rw [List.toFinset_card_of_nodup hnd, List.toFinset_card_of_nodup hnodup, hlength]
      simp [hlen]
  refine ⟨by simpa using heq, hnodup, hfin, ?_, fun _ _ => rfl⟩
  have hall : ∀ x ∈ pool, x ∈ (rotationRun pool [] ks).1 := by
    intro x hx
    have hx2 : x ∈ pool.toFinset := List.mem_toFinset.mpr hx
    rw [← hfin] at hx2
    exact List.mem_toFinset.mp hx2
  have hfilter :
      pool.filter (fun t => decide (t ∉ (rotationRun pool [] ks).1)) = [] := by
    rw [List.filter_eq_nil_iff]
    intro a ha
    simp [hall a ha]
  have hplt : k % pool.length < pool.length :=
    Nat.mod_lt _ (List.length_pos.mpr hne)
  have hne2 : pool.isEmpty = false := by
    cases pool
    · exact absurd rfl hne
    · rfl
  refine ⟨pool.getD (k % pool.length) "", getD_mem _ _ _ hplt, ?_⟩
  simp only [_get_next_tweet, hne2, Bool.false_eq_true, if_false, hfilter,
    List.isEmpty_nil, if_true, List.nil_append]

/-- C6 witness: the pool `["x", "y"]` with two calls then a third. -/
theorem C6_witness :
    (rotationRun ["x", "y"] [] [0, 0]).1 = (rotationRun ["x", "y"] [] [0, 0]).2 ∧
    (rotationRun ["x", "y"] [] [0, 0]).1.Nodup ∧
    (rotationRun ["x", "y"] [] [0, 0]).1.toFinset =
      (["x", "y"] : List String).toFinset ∧
    (∃ t ∈ ["x", "y"],
      _get_next_tweet ["x", "y"] (rotationRun ["x", "y"] [] [0, 0]).1 0 =
        some (t, [t])) ∧
    (∀ (used2 : List String) (k2 : Nat),
      _get_next_reply ["x", "y"] used2 k2 = _get_next_tweet ["x", "y"] used2 k2) :=
  C6_theorem ["x", "y"] [0, 0] 0 (by simp) (by simp) rfl

/-! ### Frame lemmas: `_save_state` only on the success path -/

theorem post_tweet_frame (mem disk : BotState) (tweets : List String) (k : Nat)
    (op : Nat → ApiResult Nat) (rl : RateLimits) (now : ℚ) :
    (post_tweet mem disk tweets k op rl now).saved =
      (post_tweet mem disk tweets k op rl now).ok ∧
    ((post_tweet mem disk tweets k op rl now).ok = false →
      (post_tweet mem disk tweets k op rl now).disk = disk) ∧
    ((_api_request_with_backoff Endpoint.tweet op rl now).res = none →
      (post_tweet mem disk tweets k op rl now).ok = false) := by
  simp only [post_tweet]
  cases h1 : _get_next_tweet tweets mem.used_tweets k with
  | none => simp
  | some p =>
    obtain ⟨t, u⟩ := p
    dsimp only
    by_cases ht : t = ""
    · simp [ht]
    · rw [if_neg ht]
      cases h2 : (_api_request_with_backoff Endpoint.tweet op rl now).res with
      | none => simp
      | some d => simp

theorem find_and_reply_frame (mem disk : BotState)
    (opSearch : Nat → ApiResult (List FoundTweet)) (replies : List String) (k : Nat)
    (delay : ℚ) (opReply : Nat → ApiResult Nat) (rl : RateLimits) (now : ℚ) :
    (find_and_reply_to_tweets mem disk opSearch replies k delay opReply rl now).saved =
      (find_and_reply_to_tweets mem disk opSearch replies k delay opReply rl now).ok ∧
    ((find_and_reply_to_tweets mem disk opSearch replies k delay opReply rl now).ok = false →
      (find_and_reply_to_tweets mem disk opSearch replies k delay opReply rl now).disk =
        disk) ∧
    ((_api_request_with_backoff Endpoint.search opSearch rl now).res = none →
      (find_and_reply_to_tweets mem disk opSearch replies k delay opReply rl now).ok =
        false) := by
  simp only [find_and_reply_to_tweets]
  cases h1 : (_api_request_with_backoff Endpoint.search opSearch rl now).res with
  | none => simp
  | some found =>
    dsimp only
    by_cases h2 : found.isEmpty = true
    · simp [h2]
    · rw [if_neg h2]
      cases h3 : found.find? (fun tw =>
          decide (tw.id ∉ mem.replied_to_tweets) &&
          decide (tw.like_count ≥ MIN_LIKES_THRESHOLD)) with
      | none => simp
      | some tw =>
        dsimp only
        cases h4 : _get_next_reply replies mem.used_replies k with
        | none => simp
        | some q =>
          obtain ⟨r, u⟩ := q
          dsimp only
          by_cases h5 : r = ""
          · simp [h5]
          · rw [if_neg h5]
            cases h6 : (_api_request_with_backoff Endpoint.tweet opReply
                (_api_request_with_backoff Endpoint.search opSearch rl now).rl
                ((_api_request_with_backoff Endpoint.search opSearch rl now).now +
                  delay)).res with
            | none => simp
            | some d => simp

theorem follow_users_frame (mem disk : BotState) (enable : Bool)
    (opSearch : Nat → ApiResult (List FoundTweet)) (delay : ℚ)
    (opFollow : Nat → ApiResult Nat) (rl : RateLimits) (now : ℚ) :
    (follow_users mem disk enable opSearch delay opFollow rl now).saved =
      (follow_users mem disk enable opSearch delay opFollow rl now).ok ∧
    ((follow_users mem disk enable opSearch delay opFollow rl now).ok = false →
      (follow_users mem disk enable opSearch delay opFollow rl now).disk = disk) ∧
    ((_api_request_with_backoff Endpoint.search opSearch rl now).res = none →
      (follow_users mem disk enable opSearch delay opFollow rl now).ok = false) := by
  simp only [follow_users]
  by_cases he : (!enable) = true
  · simp [he]
  · rw [if_neg he]
    by_cases hc : mem.follows_today ≥ FOLLOW_LIMIT_PER_DAY
    · rw [if_pos hc]; simp
    · rw [if_neg hc]
      cases h1 : (_api_request_with_backoff Endpoint.search opSearch rl now).res with
      | none => simp
      | some found =>
        dsimp only
        by_cases h2 : found.isEmpty = true
        · simp [h2]
        · rw [if_neg h2]
          cases h3 : found.find? (fun tw =>
              decide (tw.author_id ∉ mem.followed_users)) with
          | none => simp
          | some tw =>
            dsimp only
            cases h6 : (_api_request_with_backoff Endpoint.follow opFollow
                (_api_request_with_backoff Endpoint.search opSearch rl now).rl
                ((_api_request_with_backoff Endpoint.search opSearch rl now).now +
                  delay)).res with
            | none => simp
            | some d => simp

theorem send_dms_frame (mem disk : BotState) (enable : Bool) (dms : List String)
    (ku kd : Nat) (delay : ℚ) (opDm : Nat → ApiResult Nat) (rl : RateLimits) (now : ℚ) :
    (send_dms mem disk enable dms ku kd delay opDm rl now).saved =
      (send_dms mem disk enable dms ku kd delay opDm rl now).ok ∧
    ((send_dms mem disk enable dms ku kd delay opDm rl now).ok = false →
      (send_dms mem disk enable dms ku kd delay opDm rl now).disk = disk) ∧
    ((_api_request_with_backoff Endpoint.dm opDm rl (now + delay)).res = none →
      (send_dms mem disk enable dms ku kd delay opDm rl now).ok = false) := by
  simp only [send_dms]
  by_cases he : (!enable) = true
  · simp [he]
  · rw [if_neg he]
    by_cases hc : mem.dms_sent_today ≥ DM_LIMIT_PER_DAY
    · rw [if_pos hc]; simp
    · rw [if_neg hc]
      by_cases h2 : (mem.followed_users.filter
          (fun u => decide (u ∉ mem.dm_sent_users))).isEmpty = true
      · rw [if_pos h2]; simp
      · rw [if_neg h2]
        cases h3 : _get_random_dm dms kd with
        | none => simp
        | some t =>
          dsimp only
          by_cases h5 : t = ""
          · simp [h5]
          · rw [if_neg h5]
            cases h6 : (_api_request_with_backoff Endpoint.dm opDm rl (now + delay)).res with
            | none => simp
            | some d => simp

/-- C5: no on-disk state change until the remote call has succeeded.
For each gated action (`post_tweet`, `find_and_reply_to_tweets`,
`follow_users`, `send_dms`): `_save_state` is called exactly when the
action returns success; on a `False` return the persisted document is
identical to what it was before the action began; and when the
dispatcher returns Failure the action returns `False`. -/
theorem C5_theorem (mem disk : BotState) (tweets replies dms : List String)
    (k ku kd : Nat) (op opReply opFollow opDm : Nat → ApiResult Nat)
    (opSearch : Nat → ApiResult (List FoundTweet)) (enable enable2 : Bool)
    (delay : ℚ) (rl : RateLimits) (now : ℚ) :
    ((post_tweet mem disk tweets k op rl now).saved =
        (post_tweet mem disk tweets k op rl now).ok ∧
      ((post_tweet mem disk tweets k op rl now).ok = false →
        (post_tweet mem disk tweets k op rl now).disk = disk) ∧
      ((_api_request_with_backoff Endpoint.tweet op rl now).res = none →
        (post_tweet mem disk tweets k op rl now).ok = false)) ∧
    ((find_and_reply_to_tweets mem disk opSearch replies k delay opReply rl now).saved =
        (find_and_reply_to_tweets mem disk opSearch replies k delay opReply rl now).ok ∧
      ((find_and_reply_to_tweets mem disk opSearch replies k delay opReply rl now).ok =
          false →
        (find_and_reply_to_tweets mem disk opSearch replies k delay opReply rl now).disk =
          disk) ∧
      ((_api_request_with_backoff Endpoint.search opSearch rl now).res = none →
        (find_and_reply_to_tweets mem disk opSearch replies k delay opReply rl now).ok =
          false)) ∧
    ((follow_users mem disk enable opSearch delay opFollow rl now).saved =
        (follow_users mem disk enable opSearch delay opFollow rl now).ok ∧
      ((follow_users mem disk enable opSearch delay opFollow rl now).ok = false →
        (follow_users mem disk enable opSearch delay opFollow rl now).disk = disk) ∧
      ((_api_request_with_backoff Endpoint.search opSearch rl now).res = none →
        (follow_users mem disk enable opSearch delay opFollow rl now).ok = false)) ∧
    ((send_dms mem disk enable2 dms ku kd delay opDm rl now).saved =
        (send_dms mem disk enable2 dms ku kd delay opDm rl now).ok ∧
      ((send_dms mem disk enable2 dms ku kd delay opDm rl now).ok = false →
        (send_dms mem disk enable2 dms ku kd delay opDm rl now).disk = disk) ∧
      ((_api_request_with_backoff Endpoint.dm opDm rl (now + delay)).res = none →
        (send_dms mem disk enable2 dms ku kd delay opDm rl now).ok = false)) :=
  ⟨post_tweet_frame mem disk tweets k op rl now,
   find_and_reply_frame mem disk opSearch replies k delay opReply rl now,
   follow_users_frame mem disk enable opSearch delay opFollow rl now,
   send_dms_frame mem disk enable2 dms ku kd delay opDm rl now⟩

/-- C5 witness: with an always-failing remote call, `post_tweet` returns
`False` (and, by the theorem's other conjuncts, does not save). -/
theorem C5_witness :
    (post_tweet sampleState sampleState ["a"] 0 alwaysTransient (initRL 0) 0).ok =
      false := by
  apply (C5_theorem sampleState sampleState ["a"] ["b"] ["c"] 0 0 0 alwaysTransient
    alwaysTransient alwaysTransient alwaysTransient (fun _ => ApiResult.otherError)
    true true 0 (initRL 0) 0).1.2.2
  exact (dispatchGo_fail Endpoint.tweet alwaysTransient (fun _ => rfl)
    (MAX_RETRIES + 1) 0 ⟨initRL 0, 0, INITIAL_BACKOFF, []⟩).1

/-! ### Guard (idempotence) lemmas -/

theorem post_tweet_guard (mem disk : BotState) (tweets : List String) (k : Nat)
    (op : Nat → ApiResult Nat) (rl : RateLimits) (now : ℚ) :
    (post_tweet mem disk tweets k op rl now).target = none ∧
    ∀ ki, guard ki (post_tweet mem disk tweets k op rl now).mem = guard ki mem := by
  simp only [post_tweet]
  cases h1 : _get_next_tweet tweets mem.used_tweets k with
  | none => exact ⟨rfl, fun ki => by cases ki <;> rfl⟩
  | some p =>
    obtain ⟨t, u⟩ := p
    dsimp only
    by_cases ht : t = ""
    · rw [if_pos ht]
      exact ⟨rfl, fun ki => by cases ki <;> rfl⟩
    · rw [if_neg ht]
      cases h2 : (_api_request_with_backoff Endpoint.tweet op rl now).res with
      | none => exact ⟨rfl, fun ki => by cases ki <;> rfl⟩
      | some d => exact ⟨rfl, fun ki => by cases ki <;> rfl⟩

theorem reset_guard (s : BotState) (today : String) :
    ∀ ki, guard ki (_check_reset_daily_counters s today).1 = guard ki s := by
  intro ki
  simp only [_check_reset_daily_counters]
  split <;> cases ki <;> rfl

theorem find_and_reply_guard (mem disk : BotState)
    (opSearch : Nat → ApiResult (List FoundTweet)) (replies : List String) (k : Nat)
    (delay : ℚ) (opReply : Nat → ApiResult Nat) (rl : RateLimits) (now : ℚ) :
    ((find_and_reply_to_tweets mem disk opSearch replies k delay opReply rl now).target =
        none →
      ∀ ki, guard ki
        (find_and_reply_to_tweets mem disk opSearch replies k delay opReply rl now).mem =
        guard ki mem) ∧
    (∀ i, (find_and_reply_to_tweets mem disk opSearch replies k delay opReply
        rl now).target = some i →
      i ∉ mem.replied_to_tweets ∧
      (find_and_reply_to_tweets mem disk opSearch replies k delay opReply
        rl now).mem.replied_to_tweets = mem.replied_to_tweets ++ [i] ∧
      (find_and_reply_to_tweets mem disk opSearch replies k delay opReply
        rl now).mem.followed_users = mem.followed_users ∧
      (find_and_reply_to_tweets mem disk opSearch replies k delay opReply
        rl now).mem.dm_sent_users = mem.dm_sent_users) := by
  simp only [find_and_reply_to_tweets]
  cases h1 : (_api_request_with_backoff Endpoint.search opSearch rl now).res with
  | none => exact ⟨fun _ ki => by cases ki <;> rfl, fun i hi => by simp at hi⟩
  | some found =>
    dsimp only
    by_cases h2 : found.isEmpty = true
    · rw [if_pos h2]
      exact ⟨fun _ ki => by cases ki <;> rfl, fun i hi => by simp at hi⟩
    · rw [if_neg h2]
      cases h3 : found.find? (fun tw =>
          decide (tw.id ∉ mem.replied_to_tweets) &&
          decide (tw.like_count ≥ MIN_LIKES_THRESHOLD)) with
      | none => exact ⟨fun _ ki => by cases ki <;> rfl, fun i hi => by simp at hi⟩
      | some tw =>
        dsimp only
        cases h4 : _get_next_reply replies mem.used_replies k with
        | none => exact ⟨fun _ ki => by cases ki <;> rfl, fun i hi => by simp at hi⟩
        | some q =>
          obtain ⟨r, u⟩ := q
          dsimp only
          by_cases h5 : r = ""
          · rw [if_pos h5]
            exact ⟨fun _ ki => by cases ki <;> rfl, fun i hi => by simp at hi⟩
          · rw [if_neg h5]
            cases h6 : (_api_request_with_backoff Endpoint.tweet opReply
                (_api_request_with_backoff Endpoint.search opSearch rl now).rl
                ((_api_request_with_backoff Endpoint.search opSearch rl now).now +
                  delay)).res with
            | none => exact ⟨fun _ ki => by cases ki <;> rfl, fun i hi => by simp at hi⟩
            | some d =>
              refine ⟨fun hnone => by simp at hnone, fun i hi => ?_⟩
              have hii : tw.id = i := by simpa using hi
              subst hii
              have hp := List.find?_some h3
              rw [Bool.and_eq_true] at hp
              have hfresh : tw.id ∉ mem.replied_to_tweets := of_decide_eq_true hp.1
              exact ⟨hfresh, rfl, rfl, rfl⟩

theorem follow_users_guard (mem disk : BotState) (enable : Bool)
    (opSearch : Nat → ApiResult (List FoundTweet)) (delay : ℚ)
    (opFollow : Nat → ApiResult Nat) (rl : RateLimits) (now : ℚ) :
    ((follow_users mem disk enable opSearch delay opFollow rl now).target = none →
      ∀ ki, guard ki (follow_users mem disk enable opSearch delay opFollow rl now).mem =
        guard ki mem) ∧
    (∀ i, (follow_users mem disk enable opSearch delay opFollow rl now).target = some i →
      i ∉ mem.followed_users ∧
      (follow_users mem disk enable opSearch delay opFollow
        rl now).mem.followed_users = mem.followed_users ++ [i] ∧
      (follow_users mem disk enable opSearch delay opFollow
        rl now).mem.replied_to_tweets = mem.replied_to_tweets ∧
      (follow_users mem disk enable opSearch delay opFollow
        rl now).mem.dm_sent_users = mem.dm_sent_users) := by
  simp only [follow_users]
  by_cases he : (!enable) = true
  · rw [if_pos he]
    exact ⟨fun _ ki => by cases ki <;> rfl, fun i hi => by simp at hi⟩
  · rw [if_neg he]
    by_cases hc : mem.follows_today ≥ FOLLOW_LIMIT_PER_DAY
    · rw [if_pos hc]
      exact ⟨fun _ ki => by cases ki <;> rfl, fun i hi => by simp at hi⟩
    · rw [if_neg hc]
      cases h1 : (_api_request_with_backoff Endpoint.search opSearch rl now).res with
      | none => exact ⟨fun _ ki => by cases ki <;> rfl, fun i hi => by simp at hi⟩
      | some found =>
        dsimp only
        by_cases h2 : found.isEmpty = true
        · rw [if_pos h2]
          exact ⟨fun _ ki => by cases ki <;> rfl, fun i hi => by simp at hi⟩
        · rw [if_neg h2]
          cases h3 : found.find? (fun tw =>
              decide (tw.author_id ∉ mem.followed_users)) with
          | none => exact ⟨fun _ ki => by cases ki <;> rfl, fun i hi => by simp at hi⟩
          | some tw =>
            dsimp only
            cases h6 : (_api_request_with_backoff Endpoint.follow opFollow
                (_api_request_with_backoff Endpoint.search opSearch rl now).rl
                ((_api_request_with_backoff Endpoint.search opSearch rl now).now +
                  delay)).res with
            | none => exact ⟨fun _ ki => by cases ki <;> rfl, fun i hi => by simp at hi⟩
            | some d =>
              refine ⟨fun hnone => by simp at hnone, fun i hi => ?_⟩
              have hii : tw.author_id = i := by simpa using hi
              subst hii
              have hp := List.find?_some h3
              have hfresh : tw.author_id ∉ mem.followed_users := of_decide_eq_true hp
              exact ⟨hfresh, rfl, rfl, rfl⟩

theorem send_dms_guard (mem disk : BotState) (enable : Bool) (dms : List String)
    (ku kd : Nat) (delay : ℚ) (opDm : Nat → ApiResult Nat) (rl : RateLimits) (now : ℚ) :
    ((send_dms mem disk enable dms ku kd delay opDm rl now).target = none →
      ∀ ki, guard ki (send_dms mem disk enable dms ku kd delay opDm rl now).mem =
        guard ki mem) ∧
    (∀ i, (send_dms mem disk enable dms ku kd delay opDm rl now).target = some i →
      i ∉ mem.dm_sent_users ∧
      (send_dms mem disk enable dms ku kd delay opDm
        rl now).mem.dm_sent_users = mem.dm_sent_users ++ [i] ∧
      (send_dms mem disk enable dms ku kd delay opDm
        rl now).mem.replied_to_tweets = mem.replied_to_tweets ∧
      (send_dms mem disk enable dms ku kd delay opDm
        rl now).mem.followed_users = mem.followed_users) := by
  simp only [send_dms]
  by_cases he : (!enable) = true
  · rw [if_pos he]
    exact ⟨fun _ ki => by cases ki <;> rfl, fun i hi => by simp at hi⟩
  · rw [if_neg he]
    by_cases hc : mem.dms_sent_today ≥ DM_LIMIT_PER_DAY
    · rw [if_pos hc]
      exact ⟨fun _ ki => by cases ki <;> rfl, fun i hi => by simp at hi⟩
    · rw [if_neg hc]
      by_cases h2 : (mem.followed_users.filter
          (fun u => decide (u ∉ mem.dm_sent_users))).isEmpty = true
      · rw [if_pos h2]
        exact ⟨fun _ ki => by cases ki <;> rfl, fun i hi => by simp at hi⟩
      · rw [if_neg h2]
        cases h3 : _get_random_dm dms kd with
        | none => exact ⟨fun _ ki => by cases ki <;> rfl, fun i hi => by simp at hi⟩
        | some t =>
          dsimp only
          by_cases h5 : t = ""
          · rw [if_pos h5]
            exact ⟨fun _ ki => by cases ki <;> rfl, fun i hi => by simp at hi⟩
          · rw [if_neg h5]
            cases h6 : (_api_request_with_backoff Endpoint.dm opDm rl (now + delay)).res with
            | none => exact ⟨fun _ ki => by cases ki <;> rfl, fun i hi => by simp at hi⟩
            | some d =>
              refine ⟨fun hnone => by simp at hnone, fun i hi => ?_⟩
              set potential := mem.followed_users.filter
                (fun u => decide (u ∉ mem.dm_sent_users)) with hpot
              have hpne : potential ≠ [] := by
                intro hh
                rw [hh] at h2
                simp at h2
              have hlt : ku % potential.length < potential.length :=
                Nat.mod_lt _ (List.length_pos.mpr hpne)
              have hm : potential.getD (ku % potential.length) 0 ∈ potential :=
                getD_mem _ _ _ hlt
              have hmf := List.mem_filter.mp hm
              have hii : potential.getD (ku % potential.length) 0 = i := by
                simpa [← hpot] using hi
              rw [← hii]
              refine ⟨by simpa using hmf.2, rfl, rfl, rfl⟩

/-- One step either leaves every guard list unchanged (no interaction) or
appends a fresh target to exactly the guard list of its kind. -/
theorem runStep_guard (w : World) (st : BotStep) :
    ((runStep w st).2 = none →
      ∀ ki, guard ki (runStep w st).1.mem = guard ki w.mem) ∧
    (∀ ki i, (runStep w st).2 = some (ki, i) →
      i ∉ guard ki w.mem ∧
      guard ki (runStep w st).1.mem = guard ki w.mem ++ [i] ∧
      ∀ kj, kj ≠ ki → guard kj (runStep w st).1.mem = guard kj w.mem) := by
  cases st with
  | stepTweet tweets k op =>
    refine ⟨fun _ ki => (post_tweet_guard w.mem w.disk tweets k op w.rl w.now).2 ki,
      fun ki i hi => ?_⟩
    simp [runStep] at hi
  | stepReply opS replies k delay opR =>
    have hg := find_and_reply_guard w.mem w.disk opS replies k delay opR w.rl w.now
    constructor
    · intro h ki
      have ht : (find_and_reply_to_tweets w.mem w.disk opS replies k delay opR
          w.rl w.now).target = none := by
        simpa [runStep] using h
      exact hg.1 ht ki
    · intro ki i hi
      simp only [runStep, Option.map_eq_some'] at hi
      obtain ⟨j, hj, hpair⟩ := hi
      obtain ⟨hki, hji⟩ : InteractionKind.reply = ki ∧ j = i := by
        constructor <;> [exact congrArg Prod.fst hpair; exact congrArg Prod.snd hpair]
      subst hki
      subst hji
      obtain ⟨hfresh, happ, hfol, hdm⟩ := hg.2 j hj
      refine ⟨hfresh, happ, ?_⟩
      intro kj hkj
      cases kj with
      | reply => exact absurd rfl hkj
      | follow => exact hfol
      | dm => exact hdm
  | stepFollow en opS delay opF =>
    have hg := follow_users_guard w.mem w.disk en opS delay opF w.rl w.now
    constructor
    · intro h ki
      have ht : (follow_users w.mem w.disk en opS delay opF w.rl w.now).target =
          none := by
        simpa [runStep] using h
      exact hg.1 ht ki
    · intro ki i hi
      simp only [runStep, Option.map_eq_some'] at hi
      obtain ⟨j, hj, hpair⟩ := hi
      obtain ⟨hki, hji⟩ : InteractionKind.follow = ki ∧ j = i := by
        constructor <;> [exact congrArg Prod.fst hpair; exact congrArg Prod.snd hpair]
      subst hki
      subst hji
      obtain ⟨hfresh, happ, hrep, hdm⟩ := hg.2 j hj
      refine ⟨hfresh, happ, ?_⟩
      intro kj hkj
      cases kj with
      | reply => exact hrep
      | follow => exact absurd rfl hkj
      | dm => exact hdm
  | stepDm en dms ku kd delay opD =>
    have hg := send_dms_guard w.mem w.disk en dms ku kd delay opD w.rl w.now
    constructor
    · intro h ki
      have ht : (send_dms w.mem w.disk en dms ku kd delay opD w.rl w.now).target =
          none := by
        simpa [runStep] using h
      exact hg.1 ht ki
    · intro ki i hi
      simp only [runStep, Option.map_eq_some'] at hi
      obtain ⟨j, hj, hpair⟩ := hi
      obtain ⟨hki, hji⟩ : InteractionKind.dm = ki ∧ j = i := by
        constructor <;> [exact congrArg Prod.fst hpair; exact congrArg Prod.snd hpair]
      subst hki
      subst hji
      obtain ⟨hfresh, happ, hrep, hfol⟩ := hg.2 j hj
      refine ⟨hfresh, happ, ?_⟩
      intro kj hkj
      cases kj with
      | reply => exact hrep
      | follow => exact hfol
      | dm => exact absurd rfl hkj
  | stepReset today =>
    refine ⟨fun _ ki => reset_guard w.mem today ki, fun ki i hi => ?_⟩
    simp [runStep] at hi

theorem runStep_guard_mono (w : World) (st : BotStep) (ki : InteractionKind) :
    guard ki w.mem ⊆ guard ki (runStep w st).1.mem := by
  have hstep := runStep_guard w st
  cases he : (runStep w st).2 with
  | none =>
    rw [hstep.1 he ki]
    exact fun x hx => hx
  | some p =>
    obtain ⟨kj, j⟩ := p
    by_cases hk : ki = kj
    · subst hk
      rw [(hstep.2 ki j he).2.1]
      exact fun x hx => List.mem_append_left _ hx
    · rw [(hstep.2 kj j he).2.2 ki hk]
      exact fun x hx => hx

theorem runTrace_guard_mono (steps : List BotStep) :
    ∀ (w : World) (ki : InteractionKind),
      guard ki w.mem ⊆ guard ki (runTrace w steps).1.mem := by
  induction steps with
  | nil => exact fun w ki x hx => hx
  | cons st sts ih =>
    intro w ki
    simp only [runTrace]
    exact fun x hx => ih (runStep w st).1 ki (runStep_guard_mono w st ki hx)

/-- Along any trace, every interaction event targets an id that was not
yet in its guard list at the start and is in the guard list at the end,
and the events are pairwise distinct. -/
theorem runTrace_events (steps : List BotStep) : ∀ w : World,
    (runTrace w steps).2.Nodup ∧
    (∀ ki i, (ki, i) ∈ (runTrace w steps).2 →
      i ∉ guard ki w.mem ∧ i ∈ guard ki (runTrace w steps).1.mem) := by
  induction steps with
  | nil =>
    intro w
    refine ⟨List.nodup_nil, ?_⟩
    intro ki i h
    simp [runTrace] at h
  | cons st sts ih =>
    intro w
    have hstep := runStep_guard w st
    have hmono := runStep_guard_mono w st
    have IH := ih (runStep w st).1
    have htm := runTrace_guard_mono sts (runStep w st).1
    simp only [runTrace]
    cases he : (runStep w st).2 with
    | none =>
      simp only [Option.toList_none, List.nil_append]
      refine ⟨IH.1, ?_⟩
      intro ki i hmem
      obtain ⟨h1, h2⟩ := IH.2 ki i hmem
      refine ⟨?_, h2⟩
      rw [← hstep.1 he ki]
      exact h1
    | some p =>
      obtain ⟨kj, j⟩ := p
      have hj := hstep.2 kj j he
      simp only [Option.toList_some, List.singleton_append]
      constructor
      · refine List.nodup_cons.mpr ⟨?_, IH.1⟩
        intro hin
        apply (IH.2 kj j hin).1
        rw [hj.2.1]
        simp
      · intro ki i hmem
        rcases List.mem_cons.mp hmem with heq | hin
        · obtain ⟨hki, hji⟩ : ki = kj ∧ i = j := by
            constructor <;> [exact congrArg Prod.fst heq; exact congrArg Prod.snd heq]
          subst hki
          subst hji
          refine ⟨hj.1, ?_⟩
          apply htm ki
          rw [hj.2.1]
          simp
        · obtain ⟨h1, h2⟩ := IH.2 ki i hin
          exact ⟨fun hw => h1 (hmono ki hw), h2⟩

/-- C9: across any sequence of steps the bot never performs the same
interaction twice on the same target: the events of a trace are pairwise
distinct, and no event repeats a target already recorded in the
corresponding guard list at the start of the trace. -/
theorem C9_theorem (w : World) (steps : List BotStep) :
    (runTrace w steps).2.Nodup ∧
    ∀ ki i, (ki, i) ∈ (runTrace w steps).2 → i ∉ guard ki w.mem :=
  ⟨(runTrace_events steps w).1,
   fun ki i h => ((runTrace_events steps w).2 ki i h).1⟩

/-- One search result (tweet id 1, 5 likes, author 7). -/
def foundOne : List FoundTweet := [⟨1, 5, 7⟩]

/-- A search operation that immediately succeeds with `foundOne`. -/
def searchOpOne : Nat → ApiResult (List FoundTweet) :=
  fun _ => ApiResult.success foundOne none

/-- A remote call that immediately succeeds. -/
def okOp : Nat → ApiResult Nat := fun _ => ApiResult.success 0 none

/-- A one-step trace that follows user 7. -/
def stepsOne : List BotStep := [BotStep.stepFollow true searchOpOne 0 okOp]

/-- The world at the start of the trace. -/
def worldOne : World := ⟨sampleState, sampleState, initRL 0, 0⟩

/-- C9 witness: in the one-step trace the bot follows user 7, and user 7
was not in the followed-users guard list before. -/
theorem C9_witness : 7 ∉ guard InteractionKind.follow worldOne.mem :=
  (C9_theorem worldOne stepsOne).2 InteractionKind.follow 7 (by decide)

end LushMeet
